import Mathlib

/-!
# Verification of go-completable-future

A shallow embedding of the two future/promise variants of the repository:

* `Concurrent` models `concurrent/completable-future.go` (the generic
  `CompletableFuture[T]`);
* `Futuretask` models `futuretask/futuretask.go` (the untyped `Task`).

A user-supplied action is represented by the outcome of its (single)
invocation: either it returns normally (a value together with a Go error,
modelled as `Option GoError`), or it raises a runtime fault (a Go panic).
The buffered result channel of capacity 1 is modelled by its buffer
contents (a list) plus a closed flag.  The embedding instruments each
future with event counters (action invocations, channel receives, channel
closes) so that claims of the form "the second call never re-invokes the
action" become statements about those counters.

Blocking is modelled by `Option`: an accessor that would block forever on
the given state returns `none`.  The spin-wait loop of
`CompletableFuture.Wait` is modelled against a monotone completion trace
with explicit fuel (`waitFrom`), so that "returns only after every member
is done" is a real statement about the loop rather than a tautology.
-/

set_option autoImplicit false

/-- A Go `error` value (nil errors are `Option.none` at use sites). -/
abbrev GoError := String

/-- The behaviour of one invocation of a user-supplied action: it either
returns a value of type `A` normally, or raises a runtime fault (Go panic)
carrying a message. -/
inductive Outcome (A : Type) where
  | ret : A → Outcome A
  | panics : String → Outcome A
  deriving DecidableEq, Repr

namespace Concurrent

/-- State of a `concurrent.CompletableFuture[T]`.

Fields mirror the Go struct: `s` is the supplier action (represented by
the outcome of invoking it), `r` the runnable action, `chanBuf` the
contents of the capacity-1 buffered `resultChan`, `chanClosed` whether it
has been closed, `hasChan` whether `resultChan` is non-nil, `result` the
cache pointer (`nil` ↔ `none`), `done` the atomic completion flag and
`err` the error holder.  `sCalls`, `rCalls`, `chanReads` and
`closeCount` are instrumentation counters recording how often the
supplier / runnable was invoked, how many receives were performed on
`resultChan`, and how often `close` was called on it. -/
structure CF (T : Type) where
  s : Option (Outcome (T × Option GoError))
  chanBuf : List T
  chanClosed : Bool
  hasChan : Bool
  result : Option T
  r : Option (Outcome (Option GoError))
  done : Bool
  err : Option GoError
  sCalls : Nat
  rCalls : Nat
  chanReads : Nat
  closeCount : Nat
  deriving DecidableEq, Repr

/-- `concurrent.RunAsync`: builds the future with only the runnable set.
(The `go future.execute()` launch is the separate `execute` step.) -/
def RunAsync (T : Type) (a : Outcome (Option GoError)) : CF T :=
  { s := none, chanBuf := [], chanClosed := false, hasChan := false,
    result := none, r := some a, done := false, err := none,
    sCalls := 0, rCalls := 0, chanReads := 0, closeCount := 0 }

/-- `concurrent.SupplyAsync`: builds the future with the supplier set and a
fresh capacity-1 result channel. -/
def SupplyAsync {T : Type} (a : Outcome (T × Option GoError)) : CF T :=
  { s := some a, chanBuf := [], chanClosed := false, hasChan := true,
    result := none, r := none, done := false, err := none,
    sCalls := 0, rCalls := 0, chanReads := 0, closeCount := 0 }

/-- `CompletableFuture.close`: closes `resultChan` when it is non-nil. -/
def closeChan {T : Type} (f : CF T) : CF T :=
  match f.hasChan with
  | true => { f with chanClosed := true, closeCount := f.closeCount + 1 }
  | false => f

/-- Sets the completion flag, as the deferred `future.done.Store(true)`
does on every exit path of `execute`, a fault included. -/
def markDone {T : Type} (f : CF T) : CF T :=
  { f with done := true }

/-- The runnable half of `CompletableFuture.execute` (the `if r != nil`
block).  Returns the new state together with the escaped panic, if any. -/
def runRunnable {T : Type} (f : CF T) : CF T × Option String :=
  match f.r with
  | none => (markDone f, none)
  | some a =>
    let f1 := { f with rCalls := f.rCalls + 1 }
    match a with
    | Outcome.panics m => (markDone f1, some m)
    | Outcome.ret (some e) => (markDone { f1 with err := some e }, none)
    | Outcome.ret none => (markDone f1, none)

/-- `CompletableFuture.execute`, the activation body run by the goroutine
spawned at construction.  The second component is the panic escaping the
activation, `none` when the activation finishes normally.  The deferred
`done.Store(true)` runs on every path, including during panic unwinding,
hence `markDone` everywhere. -/
def execute {T : Type} (f : CF T) : CF T × Option String :=
  match f.r, f.s with
  | none, none => (markDone (closeChan f), none)
  | _, _ =>
    match f.s with
    | some a =>
      let f1 := { f with sCalls := f.sCalls + 1 }
      match a with
      | Outcome.panics m => (markDone f1, some m)
      | Outcome.ret (v, e) =>
        let f2 := { f1 with chanBuf := f1.chanBuf ++ [v] }
        match e with
        | some er => (markDone { f2 with err := some er }, none)
        | none => runRunnable f2
    | none => runRunnable f

/-- `CompletableFuture.IsDone`: non-blocking read of the flag. -/
def IsDone {T : Type} (f : CF T) : Bool :=
  f.done

/-- `CompletableFuture.Get`.  `none` means the call blocks forever on this
state (its inner `Wait` spins while `done` is false); `some (v, f1)` means
it returns `v` leaving the future in state `f1`.  The zero value of `T`
is `default`. -/
def Get {T : Type} [Inhabited T] (f : CF T) : Option (T × CF T) :=
  match f.s with
  | none => some (default, f)
  | some _ =>
    match f.result with
    | some v => some (v, f)
    | none =>
      match f.done with
      | false => none
      | true =>
        match f.chanBuf with
        | [] => some (default, f)
        | v :: rest =>
          let f1 := { f with chanBuf := rest, chanReads := f.chanReads + 1,
                             result := some v }
          let f2 := closeChan f1
          some (v, f2)

/-- `CompletableFuture.Err`: waits for completion, then returns the error
holder.  `none` means the call blocks forever on this state. -/
def Err {T : Type} (f : CF T) : Option (Option GoError) :=
  match f.done with
  | false => none
  | true => some f.err

/-- A monotone completion trace: the value of one future's atomic `done`
flag at each instant.  Once set it stays set (the flag is stored once and
never cleared). -/
structure DoneTrace where
  done : Nat → Bool
  mono : ∀ s t : Nat, s ≤ t → done s = true → done t = true

/-- The spin loop of `CompletableFuture.Wait`, started at instant `t` and
given `fuel` loop iterations: it returns (with the instant at which it
observed `done`) as soon as the flag reads true, and keeps spinning
otherwise.  `none` means the loop is still spinning after `fuel`
iterations. -/
def waitFrom (d : DoneTrace) : Nat → Nat → Option Nat
  | _, 0 => none
  | t, fuel + 1 =>
    match d.done t with
    | true => some t
    | false => waitFrom d (t + 1) fuel

/-- The aggregate `concurrent.Wait(futures...)`: returns at once on an
empty list, otherwise calls each member's `Wait` in order, each starting
at the instant the previous one returned. -/
def waitAllFrom : List DoneTrace → Nat → Nat → Option Nat
  | [], t, _ => some t
  | d :: rest, t, fuel =>
    match waitFrom d t fuel with
    | none => none
    | some t1 => waitAllFrom rest t1 fuel

end Concurrent

namespace Futuretask

/-- A Go `any` value: `none` is the nil interface value (the zero value
`var empty any`), `some w` a non-nil value of payload type `W`. -/
abbrev AnyVal (W : Type) := Option W

/-- State of a `futuretask.Task`.  Same reading as `Concurrent.CF`, with
the differences of the source: the result holder is itself an `any` (the
cache test is `task.result != nil`), and there is no completion flag. -/
structure Task (W : Type) where
  s : Option (Outcome (AnyVal W × Option GoError))
  chanBuf : List (AnyVal W)
  chanClosed : Bool
  hasChan : Bool
  result : AnyVal W
  r : Option (Outcome (Option GoError))
  err : Option GoError
  sCalls : Nat
  rCalls : Nat
  chanReads : Nat
  closeCount : Nat
  deriving DecidableEq, Repr

/-- `futuretask.PlanRun`: records the runnable; nothing is launched. -/
def PlanRun (W : Type) (a : Outcome (Option GoError)) : Task W :=
  { s := none, chanBuf := [], chanClosed := false, hasChan := false,
    result := none, r := some a, err := none,
    sCalls := 0, rCalls := 0, chanReads := 0, closeCount := 0 }

/-- `futuretask.PlanSupply`: records the supplier and allocates the
capacity-1 result channel; nothing is launched. -/
def PlanSupply {W : Type} (a : Outcome (AnyVal W × Option GoError)) : Task W :=
  { s := some a, chanBuf := [], chanClosed := false, hasChan := true,
    result := none, r := none, err := none,
    sCalls := 0, rCalls := 0, chanReads := 0, closeCount := 0 }

/-- The goroutine body shared by `futuretask.Execute` and
`futuretask.Run`: runs the supplier (pushing its value, recording and
sending its error) then the runnable.  Returns the task's eventual state,
the error the goroutine sends on `errChan` (`none` when it sends
nothing), and the panic escaping the goroutine, if any. -/
def goBody {W : Type} (t : Task W) : Task W × Option GoError × Option String :=
  match t.s with
  | some a =>
    let t1 := { t with sCalls := t.sCalls + 1 }
    match a with
    | Outcome.panics m => (t1, none, some m)
    | Outcome.ret (v, e) =>
      let t2 := { t1 with chanBuf := t1.chanBuf ++ [v] }
      match e with
      | some er => ({ t2 with err := some er }, some er, none)
      | none => runRunnablePart t2
  | none => runRunnablePart t
where
  /-- The `if r != nil` block of the goroutine body. -/
  runRunnablePart (t : Task W) : Task W × Option GoError × Option String :=
    match t.r with
    | none => (t, none, none)
    | some a =>
      let t1 := { t with rCalls := t.rCalls + 1 }
      match a with
      | Outcome.panics m => (t1, none, some m)
      | Outcome.ret (some e) => ({ t1 with err := some e }, some e, none)
      | Outcome.ret none => (t1, none, none)

/-- The first error sent on the unbuffered `errChan`, in the order the
aggregation logic observes the goroutines (modelled as list order). -/
def firstSent : List (Option GoError) → Option GoError
  | [] => none
  | some e :: _ => some e
  | none :: rest => firstSent rest

/-- The spawned goroutines of an aggregate call: every task's body runs.
`none` models the process crash caused by a goroutine whose action panics
(there is no `recover` anywhere in the package); otherwise the tasks'
eventual states together with the first error observed on `errChan`. -/
def aggregateRuns {W : Type} (ts : List (Task W)) :
    Option (List (Task W) × Option GoError) :=
  match (ts.map goBody).any (fun p => p.2.2.isSome) with
  | true => none
  | false => some ((ts.map goBody).map (fun p => p.1),
                   firstSent ((ts.map goBody).map (fun p => p.2.1)))

/-- `futuretask.Execute`: an empty list returns nil at once; otherwise all
goroutines run and the `select` yields the first error observed on
`errChan`, or nil once `doneChan` closes with no error sent. -/
def Execute {W : Type} (ts : List (Task W)) : Option (List (Task W) × Option GoError) :=
  match ts with
  | [] => some ([], none)
  | a :: l => aggregateRuns (a :: l)

/-- `futuretask.Run`: same goroutine bodies, but the select waits only on
`doneChan`, so no error is surfaced. -/
def Run {W : Type} (ts : List (Task W)) : Option (List (Task W)) :=
  match ts with
  | [] => some []
  | a :: l => (aggregateRuns (a :: l)).map (fun p => p.1)

/-- `Task.Get`: never waits.  Returns the value together with the task's
new state. -/
def Get {W : Type} (t : Task W) : AnyVal W × Task W :=
  match t.s with
  | none => (none, t)
  | some _ =>
    match t.result with
    | some v => (some v, t)
    | none =>
      match t.chanBuf with
      | [] => (none, t)
      | v :: rest =>
        let t1 := { t with chanBuf := rest, chanReads := t.chanReads + 1,
                           result := v, chanClosed := true,
                           closeCount := t.closeCount + 1 }
        (t1.result, t1)

/-- `Task.Err`: returns the error holder at once, with no waiting of any
kind (the Go body is the single statement `return task.err`). -/
def Err {W : Type} (t : Task W) : Option GoError :=
  t.err

/-- The task's action, when invoked, returns normally (no panic). -/
def noPanic {W : Type} (t : Task W) : Prop :=
  (goBody t).2.2 = none

/-- The error this task's goroutine sends on `errChan`. -/
def sentErr {W : Type} (t : Task W) : Option GoError :=
  (goBody t).2.1

/-- The task's action runs to completion with no error and no panic. -/
def actionSucceeds {W : Type} (t : Task W) : Prop :=
  noPanic t ∧ sentErr t = none

instance {W : Type} [DecidableEq W] (t : Task W) : Decidable (noPanic t) := by
  unfold noPanic; infer_instance

instance {W : Type} [DecidableEq W] (t : Task W) : Decidable (actionSucceeds t) := by
  unfold actionSucceeds noPanic sentErr; infer_instance

end Futuretask

/-- `firstSent` of a list of nil errors is nil. -/
theorem firstSent_all_none (l : List (Option GoError))
    (h : ∀ x ∈ l, x = none) : Futuretask.firstSent l = none := by
  induction l with
  | nil => rfl
  | cons a rest ih =>
    have ha : a = none := h a (List.mem_cons_self a rest)
    subst ha
    exact ih fun x hx => h x (List.mem_cons_of_mem _ hx)

/-- `firstSent` skips a nil prefix and yields the first non-nil error. -/
theorem firstSent_first_some (l2 : List (Option GoError)) (e : GoError)
    (l1 : List (Option GoError)) (h : ∀ x ∈ l1, x = none) :
    Futuretask.firstSent (l1 ++ some e :: l2) = some e := by
  induction l1 with
  | nil => rfl
  | cons a rest ih =>
    have ha : a = none := h a (List.mem_cons_self a rest)
    subst ha
    exact ih fun x hx => h x (List.mem_cons_of_mem _ hx)

/-- When no task's action panics, no goroutine faults. -/
theorem goBody_any_panic_false {W : Type} (ts : List (Futuretask.Task W))
    (h : ∀ t ∈ ts, Futuretask.noPanic t) :
    (ts.map Futuretask.goBody).any (fun p => p.2.2.isSome) = false := by
  induction ts with
  | nil => rfl
  | cons a l ih =>
    have ha : Futuretask.noPanic a := h a (List.mem_cons_self a l)
    unfold Futuretask.noPanic at ha
    simp only [List.map_cons, List.any_cons, ha, Option.isSome_none, Bool.false_or]
    exact ih fun t ht => h t (List.mem_cons_of_mem _ ht)

/-- On a non-empty list of tasks none of whose actions panics,
`Execute` runs every goroutine body and surfaces the first sent error. -/
theorem Execute_run_all {W : Type} (ts : List (Futuretask.Task W))
    (hne : ts ≠ []) (h : ∀ t ∈ ts, Futuretask.noPanic t) :
    Futuretask.Execute ts =
      some (ts.map (fun t => (Futuretask.goBody t).1),
            Futuretask.firstSent (ts.map Futuretask.sentErr)) := by
  cases ts with
  | nil => exact absurd rfl hne
  | cons a l =>
    have hany := goBody_any_panic_false (a :: l) h
    show Futuretask.aggregateRuns (a :: l) = _
    unfold Futuretask.aggregateRuns
    rw [hany]
    simp only [List.map_map]
    rfl

/-- Claim C2: when the supplier returns a value `v` together with a non-nil
error `e`, the activation still pushes `v` onto the result channel and
records `e`; afterwards `Get` returns `v` and `Err` returns `e`, and each
succeeds on the completed state independently of the other. -/
theorem supplier_error_value_still_delivered {T : Type} [Inhabited T]
    (v : T) (e : GoError) :
    let f := (Concurrent.execute (Concurrent.SupplyAsync (Outcome.ret (v, some e)))).1
    f.chanBuf = [v] ∧ f.err = some e ∧
    (∃ f1, Concurrent.Get f = some (v, f1)) ∧
    Concurrent.Err f = some (some e) :=
  ⟨rfl, rfl, ⟨_, rfl⟩, rfl⟩

/-- Claim C3: on a supplier future whose activation has run, the first
`Get` drains the channel, caches the value (`result = some v`) and has
performed exactly one supplier invocation and one channel receive; the
second `Get` returns the same value with the state unchanged — so it
re-invokes nothing, re-reads nothing, and is answered from the cache. -/
theorem Get_second_call_answered_from_cache {T : Type} [Inhabited T]
    (v : T) (e : Option GoError) :
    let f := (Concurrent.execute (Concurrent.SupplyAsync (Outcome.ret (v, e)))).1
    ∃ f1, Concurrent.Get f = some (v, f1) ∧ f1.result = some v ∧
      f1.sCalls = 1 ∧ f1.chanReads = 1 ∧
      Concurrent.Get f1 = some (v, f1) := by
  cases e <;> exact ⟨_, rfl, rfl, rfl, rfl, rfl⟩

/-- Claim C5, counterexample: a supplier future whose action panics.  The
activation does not recover the fault: the panic escapes (`execute`'s
second component), `errorState` stays nil — contradicting the claim that
the fault is converted into the error state and never escapes. -/
theorem panic_not_recovered_counterexample :
    let p := Concurrent.execute
      (Concurrent.SupplyAsync (T := Nat) (Outcome.panics "kaboom"))
    p.2 = some "kaboom" ∧ p.1.err = none ∧ p.1.done = true :=
  ⟨rfl, rfl, rfl⟩

/-- Claim C5, amended: when the action of a future panics, the activation
does not recover the fault — the panic escapes the activation and the
error holder stays nil; only the completion flag is still set to done,
because its store is deferred (in the generic variant).  Stated for the
supplier and runnable generic futures and for the futuretask goroutine
body (whose task has no completion flag at all). -/
theorem panic_escapes_activation {T W : Type} (m : String) :
    (let p := Concurrent.execute (Concurrent.SupplyAsync (T := T) (Outcome.panics m))
     p.2 = some m ∧ p.1.done = true ∧ p.1.err = none ∧ p.1.chanBuf = []) ∧
    (let q := Concurrent.execute (Concurrent.RunAsync T (Outcome.panics m))
     q.2 = some m ∧ q.1.done = true ∧ q.1.err = none) ∧
    (let r := Futuretask.goBody (Futuretask.PlanSupply (W := W) (Outcome.panics m))
     r.2.2 = some m ∧ r.1.err = none) :=
  ⟨⟨rfl, rfl, rfl, rfl⟩, ⟨rfl, rfl, rfl⟩, ⟨rfl, rfl⟩⟩

/-- Claim C8: a runnable future (no supplier) answers `Get` with the zero
value at once — in particular without consulting the completion flag, so
the call never blocks. -/
theorem runnable_Get_returns_zero_immediately {T : Type} [Inhabited T]
    (f : Concurrent.CF T) (h : f.s = none) :
    Concurrent.Get f = some (default, f) := by
  unfold Concurrent.Get
  rw [h]

/-- Witness for `runnable_Get_returns_zero_immediately`, at a freshly
constructed (not yet done) runnable future. -/
theorem runnable_Get_returns_zero_immediately_witness :
    (Concurrent.RunAsync Nat (Outcome.ret none)).s = none ∧
    (Concurrent.RunAsync Nat (Outcome.ret none)).done = false ∧
    Concurrent.Get (Concurrent.RunAsync Nat (Outcome.ret none)) =
      some (0, Concurrent.RunAsync Nat (Outcome.ret none)) :=
  ⟨rfl, rfl, runnable_Get_returns_zero_immediately _ rfl⟩

/-- Claim C9: in the futuretask variant, `Task.Get` on a freshly planned
supplier task (work not yet executed, channel empty, nothing cached)
returns the nil `any` value at once and leaves the task untouched —
it does not block waiting for a result. -/
theorem Task_Get_before_execution_returns_empty {W : Type}
    (a : Outcome (Futuretask.AnyVal W × Option GoError)) :
    Futuretask.Get (Futuretask.PlanSupply a) = (none, Futuretask.PlanSupply a) :=
  rfl

/-- Claim C10: on a supplier future whose activation has run, the channel
has not yet been closed; the first `Get` closes it exactly once and caches
the value; the second `Get` returns the cached value with the state
unchanged, so the channel is neither read again nor closed again. -/
theorem result_channel_closed_at_most_once {T : Type} [Inhabited T]
    (v : T) (e : Option GoError) :
    let f := (Concurrent.execute (Concurrent.SupplyAsync (Outcome.ret (v, e)))).1
    f.closeCount = 0 ∧
    ∃ f1, Concurrent.Get f = some (v, f1) ∧ f1.closeCount = 1 ∧
      f1.chanClosed = true ∧ f1.result = some v ∧
      Concurrent.Get f1 = some (v, f1) := by
  cases e <;> exact ⟨rfl, _, rfl, rfl, rfl, rfl, rfl⟩

/-- Claim C6, counterexample: a futuretask supplier task.  After
`PlanSupply` the action has not been invoked (zero invocations, empty
channel); the aggregate `Execute` itself invokes it — contradicting the
claim that construction launches the action and aggregates never invoke
it. -/
theorem construction_does_not_launch_counterexample :
    let t := Futuretask.PlanSupply (W := Nat) (Outcome.ret (some 7, none))
    t.sCalls = 0 ∧ t.chanBuf = [] ∧
    Futuretask.Execute [t] =
      some ([{ t with sCalls := 1, chanBuf := [some 7] }], none) :=
  ⟨rfl, rfl, rfl⟩

/-- Claim C6, amended: in the generic concurrent variant the constructors
record the action uninvoked and the activation spawned at construction
performs the single invocation; in the futuretask variant `PlanRun` and
`PlanSupply` do not invoke the action either — there it is the aggregate
operations' goroutine body that invokes it. -/
theorem construction_and_invocation_split {T W : Type}
    (o : Outcome (T × Option GoError)) (a b : Outcome (Option GoError))
    (u : Outcome (Futuretask.AnyVal W × Option GoError)) :
    ((Concurrent.SupplyAsync o).sCalls = 0 ∧
     ((Concurrent.execute (Concurrent.SupplyAsync o)).1).sCalls = 1) ∧
    ((Concurrent.RunAsync T a).rCalls = 0 ∧
     ((Concurrent.execute (Concurrent.RunAsync T a)).1).rCalls = 1) ∧
    ((Futuretask.PlanSupply u).sCalls = 0 ∧
     ((Futuretask.goBody (Futuretask.PlanSupply u)).1).sCalls = 1) ∧
    ((Futuretask.PlanRun W b).rCalls = 0 ∧
     ((Futuretask.goBody (Futuretask.PlanRun W b)).1).rCalls = 1) := by
  refine ⟨⟨rfl, ?_⟩, ⟨rfl, ?_⟩, ⟨rfl, ?_⟩, ⟨rfl, ?_⟩⟩
  · rcases o with ⟨v, _ | er⟩ | m <;> rfl
  · rcases a with (_ | er) | m <;> rfl
  · rcases u with ⟨v, _ | er⟩ | m <;> rfl
  · rcases b with (_ | er) | m <;> rfl

/-- Claim C7, counterexample: a futuretask supplier task whose action,
when run, records an error.  Before anything has executed, `Task.Err`
already returns (with nil) — it does not block until the action has
finished, contradicting the claim. -/
theorem Err_returns_before_completion_counterexample :
    let t := Futuretask.PlanSupply (W := Nat) (Outcome.ret (none, some "late"))
    Futuretask.Err t = none ∧ t.sCalls = 0 ∧
    ((Futuretask.goBody t).1).err = some "late" :=
  ⟨rfl, rfl, rfl⟩

/-- Claim C7, amended: in the generic concurrent variant `Err` blocks
until the completion flag is done and only then returns the recorded
error; in the futuretask variant `Task.Err` returns the current error
holder immediately, with no blocking at all. -/
theorem Err_blocking_split {T W : Type} (f : Concurrent.CF T)
    (t : Futuretask.Task W) :
    (f.done = false → Concurrent.Err f = none) ∧
    (f.done = true → Concurrent.Err f = some f.err) ∧
    Futuretask.Err t = t.err := by
  refine ⟨fun h => ?_, fun h => ?_, rfl⟩ <;> unfold Concurrent.Err <;> rw [h]

/-- Claim C1: the aggregate `Execute` returns nil at once on an empty
list; it returns nil when every member's action succeeds; and when a
member fails, it returns exactly the first failure observed (the
observation order of the goroutines being modelled by the list order),
surfacing no other error. -/
theorem Execute_surfaces_first_error {W : Type}
    (ts pre post : List (Futuretask.Task W)) (t0 : Futuretask.Task W)
    (e : GoError) :
    Futuretask.Execute ([] : List (Futuretask.Task W)) = some ([], none) ∧
    ((∀ t ∈ ts, Futuretask.actionSucceeds t) →
      ∃ us, Futuretask.Execute ts = some (us, none)) ∧
    ((∀ t ∈ pre, Futuretask.noPanic t ∧ Futuretask.sentErr t = none) →
      Futuretask.noPanic t0 → Futuretask.sentErr t0 = some e →
      (∀ t ∈ post, Futuretask.noPanic t) →
      ∃ us, Futuretask.Execute (pre ++ t0 :: post) = some (us, some e)) := by
  refine ⟨rfl, fun h => ?_, fun hpre h0 he hpost => ?_⟩
  · cases ts with
    | nil => exact ⟨[], rfl⟩
    | cons a l =>
      have hfs : Futuretask.firstSent ((a :: l).map Futuretask.sentErr) = none := by
        refine firstSent_all_none _ ?_
        intro x hx
        rw [List.mem_map] at hx
        obtain ⟨t, ht, rfl⟩ := hx
        exact (h t ht).2
      exact ⟨_, by
        rw [Execute_run_all _ (List.cons_ne_nil a l) (fun t ht => (h t ht).1), hfs]⟩
  · have hne : pre ++ t0 :: post ≠ [] := by simp
    have hnp : ∀ t ∈ pre ++ t0 :: post, Futuretask.noPanic t := by
      intro t ht
      rcases List.mem_append.1 ht with h1 | h2
      · exact (hpre t h1).1
      · rcases List.mem_cons.1 h2 with rfl | h3
        · exact h0
        · exact hpost t h3
    have hfs : Futuretask.firstSent ((pre ++ t0 :: post).map Futuretask.sentErr) =
        some e := by
      rw [List.map_append, List.map_cons, he]
      refine firstSent_first_some _ e _ ?_
      intro x hx
      rw [List.mem_map] at hx
      obtain ⟨t, ht, rfl⟩ := hx
      exact (hpre t ht).2
    exact ⟨_, by rw [Execute_run_all _ hne hnp, hfs]⟩

/-- Witness for `Execute_surfaces_first_error`: a two-task all-success
list, and a failing supplier between a succeeding runnable and a failing
runnable — `Execute` surfaces the supplier's error only. -/
theorem Execute_surfaces_first_error_witness :
    (∀ t ∈ [Futuretask.PlanSupply (W := Nat) (Outcome.ret (some 3, none)),
            Futuretask.PlanRun Nat (Outcome.ret none)],
        Futuretask.actionSucceeds t) ∧
    (∃ us, Futuretask.Execute
        [Futuretask.PlanSupply (W := Nat) (Outcome.ret (some 3, none)),
         Futuretask.PlanRun Nat (Outcome.ret none)] = some (us, none)) ∧
    (∀ t ∈ [Futuretask.PlanRun Nat (Outcome.ret none)],
        Futuretask.noPanic t ∧ Futuretask.sentErr t = none) ∧
    Futuretask.sentErr (Futuretask.PlanSupply (W := Nat)
        (Outcome.ret (none, some "boom"))) = some "boom" ∧
    (∃ us, Futuretask.Execute
        ([Futuretask.PlanRun Nat (Outcome.ret none)] ++
          Futuretask.PlanSupply (W := Nat) (Outcome.ret (none, some "boom")) ::
          [Futuretask.PlanRun Nat (Outcome.ret (some "later"))]) =
        some (us, some "boom")) :=
  ⟨by decide,
   (Execute_surfaces_first_error
      [Futuretask.PlanSupply (W := Nat) (Outcome.ret (some 3, none)),
       Futuretask.PlanRun Nat (Outcome.ret none)] [] []
      (Futuretask.PlanRun Nat (Outcome.ret none)) "boom").2.1 (by decide),
   by decide, by decide,
   (Execute_surfaces_first_error ([] : List (Futuretask.Task Nat))
      [Futuretask.PlanRun Nat (Outcome.ret none)]
      [Futuretask.PlanRun Nat (Outcome.ret (some "later"))]
      (Futuretask.PlanSupply (W := Nat) (Outcome.ret (none, some "boom")))
      "boom").2.2 (by decide) (by decide) (by decide) (by decide)⟩

/-- A member `Wait` that returns does so at an instant no earlier than its
start, at which the flag reads true. -/
theorem waitFrom_le_and_done (d : Concurrent.DoneTrace) (fuel : Nat) :
    ∀ t t1 : Nat, Concurrent.waitFrom d t fuel = some t1 →
      t ≤ t1 ∧ d.done t1 = true := by
  induction fuel with
  | zero => intro t t1 h; simp [Concurrent.waitFrom] at h
  | succ n ih =>
    intro t t1 h
    unfold Concurrent.waitFrom at h
    cases hd : d.done t with
    | true =>
      rw [hd] at h
      injection h with h
      subst h
      exact ⟨le_refl _, hd⟩
    | false =>
      rw [hd] at h
      obtain ⟨h1, h2⟩ := ih (t + 1) t1 h
      exact ⟨by omega, h2⟩

/-- When the aggregate wait returns, every member's flag reads true at
the instant of return (monotonicity lifts each member's observation to
the final instant). -/
theorem waitAllFrom_le_and_done (fuel : Nat) (ds : List Concurrent.DoneTrace) :
    ∀ t tr : Nat, Concurrent.waitAllFrom ds t fuel = some tr →
      t ≤ tr ∧ ∀ d ∈ ds, d.done tr = true := by
  induction ds with
  | nil =>
    intro t tr h
    unfold Concurrent.waitAllFrom at h
    injection h with h
    subst h
    exact ⟨le_refl _, fun d hd => (List.not_mem_nil d hd).elim⟩
  | cons d rest ih =>
    intro t tr h
    unfold Concurrent.waitAllFrom at h
    cases hw : Concurrent.waitFrom d t fuel with
    | none => rw [hw] at h; cases h
    | some t1 =>
      rw [hw] at h
      obtain ⟨h1, hdone⟩ := waitFrom_le_and_done d fuel t t1 hw
      obtain ⟨h2, hrest⟩ := ih t1 tr h
      refine ⟨le_trans h1 h2, ?_⟩
      intro d2 hmem
      rcases List.mem_cons.1 hmem with rfl | hmem2
      · exact d2.mono t1 tr h2 hdone
      · exact hrest d2 hmem2

/-- Claim C4: the aggregate `Wait` over zero futures returns immediately
(at its start instant, whatever the fuel); and whenever it returns over
any list of futures, every member's completion flag reads true at the
instant of return. -/
theorem waitAll_returns_only_after_all_done (ds : List Concurrent.DoneTrace)
    (t fuel tr : Nat) :
    Concurrent.waitAllFrom [] t fuel = some t ∧
    (Concurrent.waitAllFrom ds t fuel = some tr →
      ∀ d ∈ ds, d.done tr = true) :=
  ⟨rfl, fun h => (waitAllFrom_le_and_done fuel ds t tr h).2⟩

/-- A completion trace whose flag becomes (and stays) true at instant 2. -/
def doneAtTwo : Concurrent.DoneTrace :=
  ⟨fun n => decide (2 ≤ n), by
    intro s t hst hs
    simp only [decide_eq_true_eq] at hs ⊢
    omega⟩

/-- Witness for `waitAll_returns_only_after_all_done`: one member whose
flag turns on at instant 2; the aggregate wait started at 0 with fuel 10
returns at instant 2, where the member is done. -/
theorem waitAll_returns_only_after_all_done_witness :
    Concurrent.waitAllFrom [doneAtTwo] 0 10 = some 2 ∧
    ∀ d ∈ [doneAtTwo], d.done 2 = true :=
  ⟨rfl, (waitAll_returns_only_after_all_done [doneAtTwo] 0 10 2).2 rfl⟩

/-- Witness for `Err_blocking_split`: a not-yet-done supplier future (its
`Err` blocks) and the same future after its activation (its `Err`
returns the recorded nil error). -/
theorem Err_blocking_split_witness :
    ((Concurrent.SupplyAsync (T := Nat) (Outcome.ret (1, none))).done = false ∧
      Concurrent.Err (Concurrent.SupplyAsync (T := Nat) (Outcome.ret (1, none))) = none) ∧
    (((Concurrent.execute (Concurrent.SupplyAsync (T := Nat) (Outcome.ret (1, none)))).1).done = true ∧
      Concurrent.Err (Concurrent.execute (Concurrent.SupplyAsync (T := Nat) (Outcome.ret (1, none)))).1 =
        some none) :=
  ⟨⟨rfl, (Err_blocking_split (Concurrent.SupplyAsync (Outcome.ret (1, none)))
      (Futuretask.PlanRun Nat (Outcome.ret none))).1 rfl⟩,
   ⟨rfl, (Err_blocking_split (Concurrent.execute (Concurrent.SupplyAsync (Outcome.ret (1, none)))).1
      (Futuretask.PlanRun Nat (Outcome.ret none))).2.1 rfl⟩⟩
